import Mathlib

/-!
Verification of the NexusStudio video-intelligence and auto-edit pipeline.

This file gives a shallow embedding of the `VideoIntelligence` class
(`src/services/ffmpegService.ts`, second document: scene / silence / beat
detection, audio segmentation, virality scoring) and of the `SmartEditor`
class (auto-edit actions, highlight reel), and proves or refutes the frozen
claims about them.

Modelling conventions:
* JavaScript numbers are modelled by `ℚ`; the special values a media
  source's `duration` can take (`NaN`, infinities) get their own type
  `JSNum`.  `Math.floor` / `Math.ceil` / `Math.round` become `Int.floor` /
  `Int.ceil` / `⌊x + 1/2⌋`.
* `Math.sqrt` (used for RMS energy and contrast) is irrational-valued, so
  the pipeline is parametrised by an abstract `sqrtF : ℚ → ℚ`; no claim
  depends on its values.
* `Math.random()` in the audio-decode fallback is modelled by explicit
  random streams `ℕ → ℚ` carried by the media source.
* The browser video element is modelled by `MediaSource`: a duration, a
  pixel-read function `ℚ → PixelBuf` (the RGBA bytes obtained after seeking
  to a timestamp), a thumbnail capture function, the decoded audio track
  (`none` when `decodeAudioData` throws), and the random/sqrt streams.
* `Array.prototype.sort` with a consistent comparator is stable (ES2019),
  and a stable sort under a total preorder has a unique result, so the two
  sorts of the code are modelled by the stable `List.insertionSort` with the
  comparator's induced order.
-/

namespace NexusVI

/-- Flat RGBA byte buffer, as read from the 160×90 analysis canvas. -/
abbrev PixelBuf := List ℕ

/-- Math.floor on a finite JavaScript number. -/
def jsFloor (q : ℚ) : ℤ := ⌊q⌋

/-- Math.ceil on a finite JavaScript number. -/
def jsCeil (q : ℚ) : ℤ := ⌈q⌉

/-- Math.round on a finite JavaScript number: halves round toward +∞. -/
def jsRound (q : ℚ) : ℤ := ⌊q + 1/2⌋

/-- The `%` operator of JavaScript truncates the quotient toward zero. -/
def jsTrunc (q : ℚ) : ℤ := q.num / (q.den : ℤ)

/-- Interface `FrameData` of `ffmpegService.ts`. -/
structure FrameData where
  time : ℚ
  brightness : ℚ
  contrast : ℚ
  motionDelta : ℚ
  thumbnail : Option String
deriving Repr, DecidableEq

/-- Interface `SceneChange`. -/
structure SceneChange where
  time : ℚ
  confidence : ℚ
deriving Repr, DecidableEq

/-- Interface `AudioSegment`. -/
structure AudioSegment where
  time : ℚ
  energy : ℚ
  isSilent : Bool
deriving Repr, DecidableEq

/-- Interface `BeatMarker`. -/
structure BeatMarker where
  time : ℚ
  strength : ℚ
deriving Repr, DecidableEq

/-- Interface `ViralClipCandidate`. -/
structure ViralClipCandidate where
  id : String
  startTime : ℚ
  endTime : ℚ
  duration : ℚ
  viralityScore : ℚ
  label : String
  reasons : List String
  thumbnail : Option String
deriving Repr, DecidableEq

/-- Interface `AnalysisResult`.  The `Float32Array` waveform becomes a
`List ℚ`; silent regions are `(start, end)` pairs. -/
structure AnalysisResult where
  frames : List FrameData
  scenes : List SceneChange
  audio : List AudioSegment
  beats : List BeatMarker
  silentRegions : List (ℚ × ℚ)
  viralClips : List ViralClipCandidate
  waveform : List ℚ
  duration : ℚ
deriving Repr, DecidableEq

/-! ### Pixel math helpers (`calcBrightness`, `calcContrast`, `calcMotionDelta`) -/

/-- Luma of the pixel starting at byte index `i`:
`pixels[i]*0.299 + pixels[i+1]*0.587 + pixels[i+2]*0.114`. -/
def lumaAt (px : PixelBuf) (i : ℕ) : ℚ :=
  (px.getD i 0 : ℚ) * (299/1000) + (px.getD (i+1) 0 : ℚ) * (587/1000) +
    (px.getD (i+2) 0 : ℚ) * (114/1000)

/-- `calcBrightness`: mean luma over the pixels (the loop steps the byte index
by 4), normalised by 255. -/
def calcBrightness (px : PixelBuf) : ℚ :=
  let n := px.length
  let sum := ((List.range ((n + 3) / 4)).map (fun k => lumaAt px (4 * k))).sum
  sum / ((n : ℚ) / 4) / 255

/-- `calcContrast`: root of the mean squared luma deviation, via the abstract
square root. -/
def calcContrast (sqrtF : ℚ → ℚ) (px : PixelBuf) (avgBrightness : ℚ) : ℚ :=
  let n := px.length
  let avg := avgBrightness * 255
  let variance := ((List.range ((n + 3) / 4)).map (fun k => (lumaAt px (4 * k) - avg) ^ 2)).sum
  sqrtF (variance / ((n : ℚ) / 4)) / 255

/-- Per-sample absolute channel difference used by `calcMotionDelta`. -/
def channelDiff (cur prev : PixelBuf) (i : ℕ) : ℚ :=
  |(cur.getD i 0 : ℚ) - (prev.getD i 0 : ℚ)| +
    |(cur.getD (i+1) 0 : ℚ) - (prev.getD (i+1) 0 : ℚ)| +
    |(cur.getD (i+2) 0 : ℚ) - (prev.getD (i+2) 0 : ℚ)|

/-- `calcMotionDelta`: the loop samples every 4th pixel (byte stride 16). -/
def calcMotionDelta (cur prev : PixelBuf) : ℚ :=
  let n := cur.length
  let diff := ((List.range ((n + 15) / 16)).map (fun k => channelDiff cur prev (16 * k))).sum
  diff / ((n : ℚ) / 16) / 255

/-! ### `extractFrames` -/

/-- One iteration of the `extractFrames` loop: seek to `i * interval`, read
the canvas pixels, compute the three metrics, and capture a thumbnail on
every 5th frame. -/
def mkFrame (sqrtF : ℚ → ℚ) (pix : ℚ → PixelBuf) (thumb : ℚ → String)
    (interval : ℚ) (i : ℕ) (prev : Option PixelBuf) : FrameData :=
  let time := (i : ℚ) * interval
  let pixels := pix time
  let brightness := calcBrightness pixels
  let contrast := calcContrast sqrtF pixels brightness
  let motionDelta := match prev with
    | some p => calcMotionDelta pixels p
    | none => 0
  { time, brightness, contrast, motionDelta,
    thumbnail := if i % 5 = 0 then some (thumb time) else none }

/-- The `extractFrames` loop, with the frame counter `i` and the previous
frame's pixels threaded through; `n` is the number of iterations left. -/
def extractFramesGo (sqrtF : ℚ → ℚ) (pix : ℚ → PixelBuf) (thumb : ℚ → String)
    (interval : ℚ) : ℕ → ℕ → Option PixelBuf → List FrameData
  | 0, _, _ => []
  | n + 1, i, prev =>
    mkFrame sqrtF pix thumb interval i prev ::
      extractFramesGo sqrtF pix thumb interval n (i + 1) (some (pix ((i : ℚ) * interval)))

/-- `extractFrames(video, interval)`: `totalFrames = Math.ceil(duration / interval)`
iterations. -/
def extractFrames (sqrtF : ℚ → ℚ) (pix : ℚ → PixelBuf) (thumb : ℚ → String)
    (duration interval : ℚ) : List FrameData :=
  extractFramesGo sqrtF pix thumb interval (jsCeil (duration / interval)).toNat 0 none

/-! ### Signal detectors -/

/-- `detectSceneChanges`: threshold is 2.5× the mean of the nonzero motion
deltas; confidence is `min(1, motion / (2 * threshold))`. -/
def detectSceneChanges (frames : List FrameData) : List SceneChange :=
  let motionValues := (frames.map (·.motionDelta)).filter (fun v => decide (0 < v))
  if motionValues.length = 0 then []
  else
    let avg := motionValues.sum / (motionValues.length : ℚ)
    let threshold := avg * (5/2)
    (frames.filter (fun f => decide (threshold < f.motionDelta))).map
      (fun f => { time := f.time, confidence := min 1 (f.motionDelta / (threshold * 2)) })

/-- Out-of-range `AudioSegment` read (never reached by `detectBeats` on the
indices it enumerates). -/
def noSegment : AudioSegment := { time := 0, energy := 0, isSilent := false }

/-- `detectBeats`: interior index `i` is a beat when the energy rise from
`i-1` exceeds 0.03 and the next step falls. -/
def detectBeats (segments : List AudioSegment) : List BeatMarker :=
  if segments.length < 3 then []
  else
    (List.range (segments.length - 2)).filterMap (fun k =>
      let i := k + 1
      let derivative := (segments.getD i noSegment).energy - (segments.getD (i-1) noSegment).energy
      let nextDerivative := (segments.getD (i+1) noSegment).energy - (segments.getD i noSegment).energy
      if 3/100 < derivative ∧ nextDerivative < 0 then
        some { time := (segments.getD i noSegment).time, strength := derivative }
      else none)

/-- The `findSilentRegions` scan, with the open run's start (`silenceStart`)
as explicit state.  A run is emitted only when a non-silent segment closes it
and it spans at least 1 second; when the list ends the open run is dropped. -/
def findSilentRegionsGo : Option ℚ → List AudioSegment → List (ℚ × ℚ)
  | _, [] => []
  | none, seg :: rest =>
    if seg.isSilent then findSilentRegionsGo (some seg.time) rest
    else findSilentRegionsGo none rest
  | some silenceStart, seg :: rest =>
    if seg.isSilent then findSilentRegionsGo (some silenceStart) rest
    else if 1 ≤ seg.time - silenceStart then
      (silenceStart, seg.time) :: findSilentRegionsGo none rest
    else findSilentRegionsGo none rest

/-- `findSilentRegions`. -/
def findSilentRegions (segments : List AudioSegment) : List (ℚ × ℚ) :=
  findSilentRegionsGo none segments

/-! ### Audio segmenter (`analyzeAudioFromVideo`) -/

/-- What `decodeAudioData` yields: one channel of PCM samples and the sample
rate. -/
structure DecodedAudio where
  channelData : List ℚ
  sampleRate : ℕ
deriving Repr

/-- One point of the downsampled waveform: block mean of absolute sample
values (`channelData[start + j] || 0`). -/
def waveformPoint (channelData : List ℚ) (spp : ℕ) (i : ℕ) : ℚ :=
  (((List.range spp).map (fun j => |channelData.getD (i * spp + j) 0|)).sum) / (spp : ℚ)

/-- The 1000-point waveform summary of the decoded track. -/
def decodedWaveform (dec : DecodedAudio) : List ℚ :=
  let spp := dec.channelData.length / 1000
  (List.range 1000).map (waveformPoint dec.channelData spp)

/-- One 0.5 s RMS bucket of the decoded track. -/
def rmsSegment (sqrtF : ℚ → ℚ) (channelData : List ℚ) (segmentSize : ℕ) (i : ℕ) :
    AudioSegment :=
  let start := i * segmentSize
  let stop := min (start + segmentSize) channelData.length
  let sumSq := ((List.range (stop - start)).map (fun j => channelData.getD (start + j) 0 ^ 2)).sum
  let rms := sqrtF (sumSq / ((stop : ℚ) - (start : ℚ)))
  { time := (i : ℚ) * (1/2), energy := rms, isSilent := decide (rms < 1/100) }

/-- All RMS buckets of the decoded track: `segmentSize = floor(sampleRate * 0.5)`,
`totalSegments = ceil(length / segmentSize)`. -/
def decodedSegments (sqrtF : ℚ → ℚ) (dec : DecodedAudio) : List AudioSegment :=
  let segmentSize := dec.sampleRate / 2
  let totalSegments := (dec.channelData.length + segmentSize - 1) / segmentSize
  (List.range totalSegments).map (rmsSegment sqrtF dec.channelData segmentSize)

/-- The fallback segment series when audio decoding throws: one segment per
`t = 0, 0.5, 1, …` below `duration` (`Math.ceil(2 * duration)` of them), with
random energy `0.3 + Math.random() * 0.4`. -/
def syntheticSegments (duration : ℚ) (rand : ℕ → ℚ) : List AudioSegment :=
  (List.range (jsCeil (2 * duration)).toNat).map (fun i =>
    let energy := 3/10 + rand i * (2/5)
    { time := (i : ℚ) * (1/2), energy := energy, isSilent := decide (energy < 1/20) })

/-- The fallback waveform: 1000 random points `0.2 + Math.random() * 0.3`. -/
def syntheticWaveform (rand : ℕ → ℚ) : List ℚ :=
  (List.range 1000).map (fun i => 1/5 + rand i * (3/10))

/-- `analyzeAudioFromVideo`: real segments and waveform when decoding
succeeded, the synthetic fallback when it threw. -/
def analyzeAudioFromVideo (sqrtF : ℚ → ℚ) (dec : Option DecodedAudio) (duration : ℚ)
    (randSeg randWave : ℕ → ℚ) : List AudioSegment × List ℚ :=
  match dec with
  | some da => (decodedSegments sqrtF da, decodedWaveform da)
  | none => (syntheticSegments duration randSeg, syntheticWaveform randWave)

/-! ### Virality scorer (`findViralClips`, `removeOverlaps`) -/

/-- Length of the time overlap of two candidates, clamped at 0 (as in
`removeOverlaps`). -/
def overlapAmount (a b : ViralClipCandidate) : ℚ :=
  max 0 (min a.endTime b.endTime - max a.startTime b.startTime)

/-- The `removeOverlaps` loop: a clip is dropped when it overlaps some
already-kept clip by more than half of the clip's own duration. -/
def removeOverlapsGo (kept : List ViralClipCandidate) :
    List ViralClipCandidate → List ViralClipCandidate
  | [] => kept
  | clip :: rest =>
    if kept.any (fun k => decide (clip.duration * (1/2) < overlapAmount k clip)) then
      removeOverlapsGo kept rest
    else removeOverlapsGo (kept ++ [clip]) rest

/-- `removeOverlaps`. -/
def removeOverlaps (clips : List ViralClipCandidate) : List ViralClipCandidate :=
  removeOverlapsGo [] clips

/-- Pad a one-character seconds string with a leading zero (`padStart(2, '0')`). -/
def padTwo (s : String) : String := if s.length < 2 then "0" ++ s else s

/-- `fmtTime`: `m:ss` using `Math.floor(s / 60)` and `Math.floor(s % 60)`. -/
def fmtTime (s : ℚ) : String :=
  let m := jsFloor (s / 60)
  let sec := jsFloor (s - 60 * (jsTrunc (s / 60) : ℚ))
  toString m ++ ":" ++ padTwo (toString sec)

/-- The `reasons` strings attached to a window, in push order. -/
def reasonsFor (energyScore motionScore : ℚ) (sceneCount beatCount : ℕ)
    (silencePenalty : ℚ) : List String :=
  (if 15 < energyScore then ["High audio energy"] else []) ++
  (if 12 < motionScore then ["Dynamic visuals"] else []) ++
  (if 2 < sceneCount then [toString sceneCount ++ " scene changes"] else []) ++
  (if 3 < beatCount then ["Strong rhythm"] else []) ++
  (if silencePenalty < 1/10 then ["No dead air"] else [])

/-- The audio segments falling in the window `[s, e)`. -/
def windowAudio (audio : List AudioSegment) (s e : ℚ) : List AudioSegment :=
  audio.filter (fun a => decide (s ≤ a.time) && decide (a.time < e))

/-- Mean audio energy in the window (`0` when the window holds no segment). -/
def avgEnergyIn (audio : List AudioSegment) (s e : ℚ) : ℚ :=
  let wa := windowAudio audio s e
  if wa.length = 0 then 0 else (wa.map (·.energy)).sum / (wa.length : ℚ)

/-- The frames falling in the window `[s, e)`. -/
def windowFrames (frames : List FrameData) (s e : ℚ) : List FrameData :=
  frames.filter (fun f => decide (s ≤ f.time) && decide (f.time < e))

/-- Mean motion delta in the window (`0` when the window holds no frame). -/
def avgMotionIn (frames : List FrameData) (s e : ℚ) : ℚ :=
  let wf := windowFrames frames s e
  if wf.length = 0 then 0 else (wf.map (·.motionDelta)).sum / (wf.length : ℚ)

/-- Number of scene changes in the window. -/
def sceneCountIn (scenes : List SceneChange) (s e : ℚ) : ℕ :=
  (scenes.filter (fun sc => decide (s ≤ sc.time) && decide (sc.time < e))).length

/-- Number of beats in the window. -/
def beatCountIn (beats : List BeatMarker) (s e : ℚ) : ℕ :=
  (beats.filter (fun b => decide (s ≤ b.time) && decide (b.time < e))).length

/-- Total silent time overlapping the window: the regions meeting the window
contribute `min(r.end, e) - max(r.start, s)` each. -/
def silenceIn (silentRegions : List (ℚ × ℚ)) (s e : ℚ) : ℚ :=
  ((silentRegions.filter (fun r => decide (r.1 < e) && decide (s < r.2))).map
    (fun r => min r.2 e - max r.1 s)).sum

/-- The window's composite score before rounding: capped energy, motion,
scene, beat and silence components. -/
def windowRawScore (frames : List FrameData) (scenes : List SceneChange)
    (audio : List AudioSegment) (beats : List BeatMarker)
    (silentRegions : List (ℚ × ℚ)) (clipLen : ℕ) (start : ℚ) : ℚ :=
  let e := start + (clipLen : ℚ)
  let energyScore := min 30 (avgEnergyIn audio start e * 100)
  let motionScore := min 25 (avgMotionIn frames start e * 5)
  let sceneScore := min 15 ((sceneCountIn scenes start e : ℚ) * 5)
  let beatScore := min 15 ((beatCountIn beats start e : ℚ) * 3)
  let silenceScore := max 0 (15 - (silenceIn silentRegions start e / (clipLen : ℚ)) * 30)
  energyScore + motionScore + sceneScore + beatScore + silenceScore

/-- Score one sliding window `[start, start + clipLen)` and build its
candidate when the rounded composite score exceeds 35 (the body of the inner
`findViralClips` loop). -/
def mkWindow (frames : List FrameData) (scenes : List SceneChange)
    (audio : List AudioSegment) (beats : List BeatMarker)
    (silentRegions : List (ℚ × ℚ)) (clipLen : ℕ) (start : ℚ) :
    Option ViralClipCandidate :=
  let e := start + (clipLen : ℚ)
  let viralityScore : ℚ :=
    (jsRound (windowRawScore frames scenes audio beats silentRegions clipLen start) : ℚ)
  if 35 < viralityScore then
    some { id := "vc_" ++ toString (jsRound start) ++ "_" ++ toString clipLen
           startTime := start
           endTime := e
           duration := (clipLen : ℚ)
           viralityScore := viralityScore
           label := toString clipLen ++ "s clip @ " ++ fmtTime start
           reasons := reasonsFor (min 30 (avgEnergyIn audio start e * 100))
             (min 25 (avgMotionIn frames start e * 5))
             (sceneCountIn scenes start e) (beatCountIn beats start e)
             (silenceIn silentRegions start e / (clipLen : ℚ))
           thumbnail := ((windowFrames frames start e).find?
             (fun f => f.thumbnail.isSome)).bind (·.thumbnail) }
  else none

/-- Window start times of one clip length: `start = 0, step, 2*step, …`
while `start + clipLen ≤ totalDuration`, `step = max(2, clipLen / 4)`. -/
def windowStarts (totalDuration : ℚ) (clipLen : ℕ) : List ℚ :=
  let step := max 2 ((clipLen : ℚ) / 4)
  (List.range ((jsFloor ((totalDuration - (clipLen : ℚ)) / step) + 1).toNat)).map
    (fun k => (k : ℚ) * step)

/-- The order induced by the comparator `(a, b) => b.viralityScore - a.viralityScore`:
sort by score descending.  `Array.prototype.sort` is stable (ES2019), and a
stable sort of a list under a total preorder is unique, so the sort is
modelled by the stable `List.insertionSort`. -/
def scoreDesc (a b : ViralClipCandidate) : Prop := b.viralityScore ≤ a.viralityScore

instance : DecidableRel scoreDesc := fun a b =>
  inferInstanceAs (Decidable (b.viralityScore ≤ a.viralityScore))

/-- `findViralClips`: score every window of every candidate length that fits
the video, sort descending by score, drop overlapping lower-scored windows,
return the top 10. -/
def findViralClips (frames : List FrameData) (scenes : List SceneChange)
    (audio : List AudioSegment) (beats : List BeatMarker)
    (silentRegions : List (ℚ × ℚ)) (totalDuration : ℚ) : List ViralClipCandidate :=
  let candidates := (([15, 30, 60] : List ℕ).filter
      (fun (len : ℕ) => decide ((len : ℚ) ≤ totalDuration))).flatMap
    (fun (len : ℕ) => (windowStarts totalDuration len).filterMap
      (mkWindow frames scenes audio beats silentRegions len))
  (removeOverlaps (candidates.insertionSort scoreDesc)).take 10

/-! ### `analyzeVideo` -/

/-- The values `video.duration` can take: a finite number, `NaN` (metadata
missing), or an infinity. -/
inductive JSNum where
  | nan
  | posInf
  | negInf
  | num (val : ℚ)
deriving Repr, DecidableEq

/-- The media source handed to the analyzer: everything `analyzeVideo` ever
reads from the video element and its environment. -/
structure MediaSource where
  duration : JSNum
  pix : ℚ → PixelBuf
  thumb : ℚ → String
  decodedAudio : Option DecodedAudio
  randSeg : ℕ → ℚ
  randWave : ℕ → ℚ
  sqrtF : ℚ → ℚ

/-- `analyzeVideo`: the guard `if (!duration || !isFinite(duration)) throw`
rejects exactly `NaN`, the infinities and `0`; otherwise the five analysis
stages run in sequence and the aggregate result is returned. -/
def analyzeVideo (video : MediaSource) : Except String AnalysisResult :=
  match video.duration with
  | .num d =>
    if d = 0 then .error "Video has no valid duration"
    else
      let frames := extractFrames video.sqrtF video.pix video.thumb d (1/2)
      let scenes := detectSceneChanges frames
      let audioResult :=
        analyzeAudioFromVideo video.sqrtF video.decodedAudio d video.randSeg video.randWave
      let beats := detectBeats audioResult.1
      let silentRegions := findSilentRegions audioResult.1
      let viralClips := findViralClips frames scenes audioResult.1 beats silentRegions d
      .ok { frames := frames, scenes := scenes, audio := audioResult.1, beats := beats,
            silentRegions := silentRegions, viralClips := viralClips,
            waveform := audioResult.2, duration := d }
  | _ => .error "Video has no valid duration"

/-! ### SmartEditor (`src/unnamed/part_003`) -/

/-- The `EditAction.type` union. -/
inductive ActionKind where
  | cut
  | trim
  | split
  | speed
  | transition
deriving Repr, DecidableEq

/-- Interface `EditAction`. -/
structure EditAction where
  type : ActionKind
  startTime : ℚ
  endTime : ℚ
  label : String
  confidence : ℚ
  icon : String
deriving Repr, DecidableEq

/-- Interface `HighlightReel`. -/
structure HighlightReel where
  clips : List ViralClipCandidate
  totalDuration : ℚ
  estimatedViralScore : ℚ
deriving Repr, DecidableEq

/-- `toFixed(1)` on a non-negative duration, used for the cut labels. -/
def toFixed1 (q : ℚ) : String :=
  let r := jsRound (q * 10)
  toString (r / 10) ++ "." ++ toString (r % 10)

/-- Step 1 of `autoEdit`: one cut action per silent region. -/
def cutActions (silentRegions : List (ℚ × ℚ)) : List EditAction :=
  silentRegions.map (fun r =>
    { type := .cut, startTime := r.1, endTime := r.2,
      label := "Remove " ++ toFixed1 (r.2 - r.1) ++ "s silence",
      confidence := 9/10, icon := "volume_off" })

/-- Step 2 of `autoEdit`: a ±0.2 s transition at every scene change with
confidence above 0.5. -/
def transitionActions (scenes : List SceneChange) : List EditAction :=
  (scenes.filter (fun s => decide (1/2 < s.confidence))).map (fun s =>
    { type := .transition, startTime := s.time - 1/5, endTime := s.time + 1/5,
      label := "Add transition at scene change",
      confidence := s.confidence, icon := "swap_horiz" })

/-- The audio filter of step 3 of `autoEdit`: `avgEnergy` is the mean over
ALL segments (`analysis.audio.length || 1` guards the empty list), and a
segment qualifies when its energy is below 40 % of that mean and it is not
silent. -/
def lowEnergyFilter (audio : List AudioSegment) : List AudioSegment :=
  let avgEnergy := (audio.map (·.energy)).sum /
    (if audio.length = 0 then 1 else (audio.length : ℚ))
  audio.filter (fun a => decide (a.energy < avgEnergy * (2/5)) && !a.isSilent)

/-- The `findConsecutiveSegments` loop over the remaining timestamps, with
the current run's first (`start`) and latest (`prevTime`) timestamps as
state.  A gap above 1 s closes the run; a closed or final run is emitted as
`(start, prevTime + 0.5)` when `prevTime - start ≥ minDuration`. -/
def findConsecutiveGo (minDuration : ℚ) (start prevTime : ℚ) :
    List ℚ → List (ℚ × ℚ)
  | [] => if minDuration ≤ prevTime - start then [(start, prevTime + 1/2)] else []
  | t :: ts =>
    if 1 < t - prevTime then
      if minDuration ≤ prevTime - start then
        (start, prevTime + 1/2) :: findConsecutiveGo minDuration t t ts
      else findConsecutiveGo minDuration t t ts
    else findConsecutiveGo minDuration start t ts

/-- `findConsecutiveSegments`, on the `time` projections of its argument. -/
def findConsecutiveSegments (minDuration : ℚ) : List ℚ → List (ℚ × ℚ)
  | [] => []
  | t :: ts => findConsecutiveGo minDuration t t ts

/-- The speed action built for one low-energy run. -/
def mkSpeedAction (seg : ℚ × ℚ) : EditAction :=
  { type := .speed, startTime := seg.1, endTime := seg.2,
    label := "Speed up slow section (1.5x)", confidence := 7/10, icon := "speed" }

/-- Step 3 of `autoEdit`: one 1.5× speed action per run of low-energy
non-silent segments. -/
def speedActions (audio : List AudioSegment) : List EditAction :=
  (findConsecutiveSegments (3/2) ((lowEnergyFilter audio).map (·.time))).map mkSpeedAction

/-- The ordered `actions` list `autoEdit` produces: silence cuts, then scene
transitions, then speed-ups. -/
def autoEditActions (analysis : AnalysisResult) : List EditAction :=
  cutActions analysis.silentRegions ++ transitionActions analysis.scenes ++
    speedActions analysis.audio

/-- Boolean test for a speed action. -/
def isSpeed (a : EditAction) : Bool := decide (a.type = ActionKind.speed)

/-- The order induced by the comparator `(a, b) => a.startTime - b.startTime`:
sort by start time ascending (stable, like `scoreDesc`). -/
def startAsc (a b : ViralClipCandidate) : Prop := a.startTime ≤ b.startTime

instance : DecidableRel startAsc := fun a b =>
  inferInstanceAs (Decidable (a.startTime ≤ b.startTime))

/-- The `createHighlightReel` selection loop: a clip is taken when it fits
the remaining budget; the loop stops as soon as the accumulated duration
reaches the target.  Returns the selected clips in visit order and the final
accumulated duration. -/
def reelSelectGo (targetDuration : ℚ) (totalDur : ℚ) :
    List ViralClipCandidate → List ViralClipCandidate × ℚ
  | [] => ([], totalDur)
  | clip :: rest =>
    if totalDur + clip.duration ≤ targetDuration then
      if targetDuration ≤ totalDur + clip.duration then ([clip], totalDur + clip.duration)
      else
        let r := reelSelectGo targetDuration (totalDur + clip.duration) rest
        (clip :: r.1, r.2)
    else
      if targetDuration ≤ totalDur then ([], totalDur)
      else reelSelectGo targetDuration totalDur rest

/-- `createHighlightReel`: greedy pick from the score-sorted candidates,
re-sorted into time order, with the mean score of the members attached. -/
def createHighlightReel (viralClips : List ViralClipCandidate)
    (targetDuration : ℚ) : HighlightReel :=
  let sorted := viralClips.insertionSort scoreDesc
  let sel := reelSelectGo targetDuration 0 sorted
  let selected := sel.1.insertionSort startAsc
  let estimatedViralScore : ℚ :=
    if 0 < selected.length then
      (jsRound ((selected.map (·.viralityScore)).sum / (selected.length : ℚ)) : ℚ)
    else 0
  { clips := selected, totalDuration := sel.2, estimatedViralScore }

/-! ### Spec-side definitions

These follow the specification's wording, for comparison with the code-side
definitions above. -/

/-- Split a timestamp list into maximal runs in which consecutive
timestamps are no more than 1 s apart.  `gapSplitGo prev ts` returns the
timestamps of `ts` that continue the run `prev` belongs to, and the later
runs. -/
def gapSplitGo (prev : ℚ) : List ℚ → List ℚ × List (List ℚ)
  | [] => ([], [])
  | t :: ts =>
    if 1 < t - prev then ([], (t :: (gapSplitGo t ts).1) :: (gapSplitGo t ts).2)
    else (t :: (gapSplitGo t ts).1, (gapSplitGo t ts).2)

/-- The maximal ≤ 1 s-gap runs of a timestamp list. -/
def gapSplit : List ℚ → List (List ℚ)
  | [] => []
  | t :: ts => (t :: (gapSplitGo t ts).1) :: (gapSplitGo t ts).2

/-- The region a run is emitted as — `(first, last + 0.5)` — provided the
run spans at least `minDuration` between its first and last timestamps. -/
def chunkRun (minDuration : ℚ) : List ℚ → Option (ℚ × ℚ)
  | [] => none
  | t :: ts =>
    if minDuration ≤ ts.getLastD t - t then some (t, ts.getLastD t + 1/2) else none

/-- Spec wording of the run merger: one region per maximal ≤ 1 s-gap run
spanning at least `minDuration`. -/
def specRuns (minDuration : ℚ) (times : List ℚ) : List (ℚ × ℚ) :=
  (gapSplit times).filterMap (chunkRun minDuration)

/-- Spec wording of the amended claim C4: one speed action per maximal
≤ 1 s-gap run (spanning ≥ 1.5 s) of non-silent segments whose energy is
below 40 % of the mean energy of all segments. -/
def specSpeedActions (audio : List AudioSegment) : List EditAction :=
  (specRuns (3/2) ((lowEnergyFilter audio).map (·.time))).map mkSpeedAction

/-- The low-energy filter as claim C4 words it: the mean is taken over the
non-silent segments only. -/
def lowEnergyFilterNS (audio : List AudioSegment) : List AudioSegment :=
  let nonSilent := audio.filter (fun a => !a.isSilent)
  let meanNS := (nonSilent.map (·.energy)).sum / (nonSilent.length : ℚ)
  audio.filter (fun a => decide (a.energy < meanNS * (2/5)) && !a.isSilent)

/-- The speed actions claim C4 predicts: runs of segments that are
low-energy relative to the mean of the NON-SILENT segments. -/
def claimSpeedActions (audio : List AudioSegment) : List EditAction :=
  (specRuns (3/2) ((lowEnergyFilterNS audio).map (·.time))).map mkSpeedAction

instance : IsTotal ViralClipCandidate scoreDesc :=
  ⟨fun a b => le_total b.viralityScore a.viralityScore⟩

instance : IsTrans ViralClipCandidate scoreDesc :=
  ⟨fun _ _ _ h1 h2 => le_trans h2 h1⟩

instance : IsTotal ViralClipCandidate startAsc :=
  ⟨fun a b => le_total a.startTime b.startTime⟩

instance : IsTrans ViralClipCandidate startAsc :=
  ⟨fun _ _ _ h1 h2 => le_trans h1 h2⟩

/-! ### Concrete inputs used by the witnesses and counterexamples -/

/-- Ten seconds of fully silent audio: twenty 0.5 s segments, all silent. -/
def allSilent20 : List AudioSegment :=
  (List.range 20).map (fun i => ⟨(i : ℚ) / 2, 0, true⟩)

/-- A constant pixel reader: one black RGBA pixel per frame. -/
def pix4 : ℚ → PixelBuf := fun _ => [0, 0, 0, 0]

/-- A 15 s track of uniform energy 0.25: scores one 15 s window at 40. -/
def audioC7 : List AudioSegment :=
  (List.range 30).map (fun i => ⟨(i : ℚ) / 2, 1/4, false⟩)

/-- The single candidate `findViralClips` emits for `audioC7` at duration 15. -/
def candC7 : ViralClipCandidate :=
  ⟨"vc_0_15", 0, 15, 15, 40, "15s clip @ 0:00", ["High audio energy", "No dead air"], none⟩

/-- A 30 s track: energy 0.25 on `[0, 15)`, energy 0.22 on `[15, 30)`.  Its
surviving candidates are the 15 s windows at 0 (score 40) and 7.5 (score 39)
and the full 30 s window (score 39). -/
def audioC8 : List AudioSegment :=
  (List.range 30).map (fun i => ⟨(i : ℚ) / 2, 1/4, false⟩) ++
  (List.range 30).map (fun i => ⟨15 + (i : ℚ) / 2, 11/50, false⟩)

/-- The surviving 30 s window of `audioC8` (score 39). -/
def candC8a : ViralClipCandidate :=
  ⟨"vc_0_30", 0, 30, 30, 39, "30s clip @ 0:00", ["High audio energy", "No dead air"], none⟩

/-- The surviving 15 s window of `audioC8` at 7.5 (score 39, same as
`candC8a`). -/
def candC8b : ViralClipCandidate :=
  ⟨"vc_8_15", 15/2, 45/2, 15, 39, "15s clip @ 0:07", ["High audio energy", "No dead air"], none⟩

/-- The higher-scored surviving 15 s window of `audioC8` at 0 (score 40). -/
def candC8c : ViralClipCandidate :=
  ⟨"vc_0_15", 0, 15, 15, 40, "15s clip @ 0:00", ["High audio energy", "No dead air"], none⟩

/-- A kept 15 s clip (score 90) for the C3 counterexample. -/
def shortClip : ViralClipCandidate :=
  ⟨"a", 0, 15, 15, 90, "short", [], none⟩

/-- A 60 s clip (score 50) fully containing `shortClip`: it overlaps it by
15 s, only a quarter of its own duration, so `removeOverlaps` keeps both. -/
def longClip : ViralClipCandidate :=
  ⟨"b", 0, 60, 60, 50, "long", [], none⟩

/-- Audio for the C4 counterexample: one loud segment (energy 10), four
segments of energy 0.9 at `0.5 … 2.0`, then 10 s of silence.  The mean over
all 25 segments is 0.544 and over the 5 non-silent ones 2.72, so the 0.9 run
is low-energy under the claim's non-silent mean (threshold 1.088) but not
under the code's all-segment mean (threshold 0.2176). -/
def audioC4 : List AudioSegment :=
  [⟨0, 10, false⟩] ++
  (List.range 4).map (fun i => ⟨1/2 + (i : ℚ) / 2, 9/10, false⟩) ++
  (List.range 20).map (fun i => ⟨5/2 + (i : ℚ) / 2, 0, true⟩)

/-- The analysis result carrying `audioC4` (no scenes or silent regions, so
`autoEdit` emits only the speed actions of step 3). -/
def analysisC4 : AnalysisResult :=
  ⟨[], [], audioC4, [], [], [], [], 25/2⟩

/-- A media source reporting duration 0, used to witness the C5 failure
path. -/
def zeroDurationSource : MediaSource :=
  ⟨.num 0, fun _ => [], fun _ => "", none, fun _ => 0, fun _ => 0, fun _ => 0⟩

/-- A 10 s media source whose audio decode failed (`decodedAudio = none`),
used to witness the C6 fallback path. -/
def fallbackSource : MediaSource :=
  ⟨.num 10, pix4, fun _ => "t", none, fun _ => 1/2, fun _ => 1/2, fun _ => 0⟩

/-! ## Theorems

Concrete evaluations below go through `decide`; the rational operations are
unsealed so that the elaborator can reduce them (the kernel re-checks every
proof either way). -/

attribute [local semireducible] Rat.add Rat.mul Rat.sub Rat.inv

/-! ### C1 — silence detection and trailing runs -/

theorem findSilentRegionsGo_all_silent (l : List AudioSegment)
    (h : ∀ s ∈ l, s.isSilent = true) :
    ∀ st : Option ℚ, findSilentRegionsGo st l = [] := by
  induction l with
  | nil => intro st; cases st <;> rfl
  | cons seg rest ih =>
    intro st
    have hs : seg.isSilent = true := h seg (List.mem_cons_self ..)
    have hrest : ∀ s ∈ rest, s.isSilent = true :=
      fun s hmem => h s (List.mem_cons_of_mem _ hmem)
    cases st with
    | none => simp [findSilentRegionsGo, hs, ih hrest]
    | some q => simp [findSilentRegionsGo, hs, ih hrest]

theorem findSilentRegionsGo_append_silent (segs extra : List AudioSegment)
    (h : ∀ s ∈ extra, s.isSilent = true) :
    ∀ st : Option ℚ, findSilentRegionsGo st (segs ++ extra) = findSilentRegionsGo st segs := by
  induction segs with
  | nil =>
    intro st
    rw [List.nil_append, findSilentRegionsGo_all_silent extra h st]
    cases st <;> rfl
  | cons seg rest ih =>
    intro st
    cases st with
    | none =>
      by_cases hs : seg.isSilent <;> simp [findSilentRegionsGo, hs, ih]
    | some q =>
      by_cases hs : seg.isSilent
      · simp [findSilentRegionsGo, hs, ih]
      · by_cases hd : 1 ≤ seg.time - q <;> simp [findSilentRegionsGo, hs, hd, ih]

/-- C1, amended.  A silent run that is still open when the segment list ends
is never emitted by `findSilentRegions`, whatever its duration: appending
any all-silent suffix to a segment list leaves the detected regions
unchanged.  In particular a fully silent track yields no silent region at
all (claim C1 predicted `[(0, 10)]` for the 10-second fully silent track;
the code yields `[]`). -/
theorem findSilentRegions_drops_trailing_run (segs extra : List AudioSegment)
    (h : ∀ s ∈ extra, s.isSilent = true) :
    findSilentRegions (segs ++ extra) = findSilentRegions segs :=
  findSilentRegionsGo_append_silent segs extra h none

/-- C1, counterexample to the claim as stated: the 10-second fully silent
track (20 silent segments at `0, 0.5, …, 9.5`) has an unterminated trailing
silent run of duration well above 1 s, yet `findSilentRegions` emits
nothing — the claimed `silentRegions = [(0, 10)]` does not happen. -/
theorem findSilentRegions_all_silent_track :
    (∀ s ∈ allSilent20, s.isSilent = true) ∧ findSilentRegions allSilent20 = [] := by
  decide

/-- C1, witness: the amended theorem applied to the empty list plus the
all-silent track. -/
theorem findSilentRegions_drops_trailing_run_witness :
    findSilentRegions ([] ++ allSilent20) = findSilentRegions [] :=
  findSilentRegions_drops_trailing_run [] allSilent20 (by decide)

/-! ### C2 — frame sample count -/

theorem extractFramesGo_length (sqrtF : ℚ → ℚ) (pix : ℚ → PixelBuf) (thumb : ℚ → String)
    (interval : ℚ) :
    ∀ (n i : ℕ) (prev : Option PixelBuf),
      (extractFramesGo sqrtF pix thumb interval n i prev).length = n := by
  intro n
  induction n with
  | zero => intro i prev; rfl
  | succ m ih => intro i prev; simp [extractFramesGo, ih]

/-- C2, amended.  The pixel sampler emits exactly `ceil(duration/interval)`
frame samples, one per loop iteration — the code computes
`totalFrames = Math.ceil(duration / interval)`, not `floor`. -/
theorem extractFrames_count (sqrtF : ℚ → ℚ) (pix : ℚ → PixelBuf) (thumb : ℚ → String)
    (duration interval : ℚ) :
    (extractFrames sqrtF pix thumb duration interval).length =
      (jsCeil (duration / interval)).toNat :=
  extractFramesGo_length sqrtF pix thumb interval _ 0 none

/-- C2, counterexample to the claim as stated: a 10.2-second source sampled
at 0.5 s yields 21 frames (`ceil(20.4)`), not the `floor(20.4) = 20` the
claim asserts. -/
theorem extractFrames_count_not_floor :
    (extractFrames (fun q => q) pix4 (fun _ => "t") (51/5) (1/2)).length ≠
      (jsFloor ((51/5) / (1/2))).toNat := by
  decide

/-! ### C3 — overlap bound of surviving candidates -/

theorem removeOverlapsGo_pairwise :
    ∀ (rest kept : List ViralClipCandidate),
      kept.Pairwise (fun a b => overlapAmount a b ≤ b.duration / 2) →
      (removeOverlapsGo kept rest).Pairwise (fun a b => overlapAmount a b ≤ b.duration / 2) := by
  intro rest
  induction rest with
  | nil => intro kept h; exact h
  | cons clip rest ih =>
    intro kept h
    rw [removeOverlapsGo]
    by_cases hany :
        kept.any (fun k => decide (clip.duration * (1/2) < overlapAmount k clip)) = true
    · rw [if_pos hany]
      exact ih kept h
    · rw [if_neg hany]
      apply ih
      rw [List.pairwise_append]
      refine ⟨h, List.pairwise_singleton .., ?_⟩
      intro a ha b hb
      rw [List.mem_singleton] at hb
      subst hb
      simp only [List.any_eq_true, decide_eq_true_eq, not_exists, not_and, not_lt] at hany
      have := hany a ha
      rw [mul_one_div] at this
      exact this

/-- C3, amended.  In the list `removeOverlaps` keeps, every clip overlaps
each clip kept before it (under the caller's descending-score order, every
higher-ranked clip) by at most 50 % of its OWN duration — the code compares
the overlap against `clip.duration * 0.5` for the clip under test, not
against the shorter of the two durations. -/
theorem removeOverlaps_own_duration_bound (clips : List ViralClipCandidate) :
    (removeOverlaps clips).Pairwise (fun a b => overlapAmount a b ≤ b.duration / 2) :=
  removeOverlapsGo_pairwise clips [] List.Pairwise.nil

/-- C3, counterexample to the claim as stated: a 15 s clip scoring 90 and a
60 s clip scoring 50 that contains it.  Both survive `removeOverlaps` (the
overlap, 15 s, is only a quarter of the lower-scored clip's 60 s duration),
yet they overlap by 15 s — twice 50 % of the SHORTER candidate's duration. -/
theorem removeOverlaps_shorter_duration_violated :
    removeOverlaps [shortClip, longClip] = [shortClip, longClip] ∧
      min shortClip.duration longClip.duration / 2 < overlapAmount shortClip longClip := by
  decide

/-! ### C10 — highlight reel duration budget -/

theorem reelSelectGo_le (targetDuration : ℚ) :
    ∀ (l : List ViralClipCandidate) (totalDur : ℚ), totalDur ≤ targetDuration →
      (reelSelectGo targetDuration totalDur l).2 ≤ targetDuration := by
  intro l
  induction l with
  | nil => intro tot h; exact h
  | cons clip rest ih =>
    intro tot h
    rw [reelSelectGo]
    by_cases hfits : tot + clip.duration ≤ targetDuration
    · rw [if_pos hfits]
      split
      · exact hfits
      · exact ih _ hfits
    · rw [if_neg hfits]
      split
      · exact h
      · exact ih _ h

theorem reelSelectGo_sum (targetDuration : ℚ) :
    ∀ (l : List ViralClipCandidate) (totalDur : ℚ),
      (reelSelectGo targetDuration totalDur l).2 =
        totalDur + (((reelSelectGo targetDuration totalDur l).1).map (·.duration)).sum := by
  intro l
  induction l with
  | nil => intro tot; simp [reelSelectGo]
  | cons clip rest ih =>
    intro tot
    rw [reelSelectGo]
    by_cases hfits : tot + clip.duration ≤ targetDuration
    · rw [if_pos hfits]
      split
      · simp
      · simp only [List.map_cons, List.sum_cons, ih (tot + clip.duration)]
        ring
    · rw [if_neg hfits]
      split
      · simp
      · exact ih tot

/-- C10, amended.  For every clip list and every non-negative target budget,
the reel's `totalDuration` never exceeds the budget (a clip is only added
when it fits entirely within the remaining budget), and `totalDuration`
equals the sum of the selected clips' durations.  The non-negativity
hypothesis is forced: with a negative budget the empty selection already
reports `totalDuration = 0 > targetDuration`. -/
theorem createHighlightReel_budget (viralClips : List ViralClipCandidate)
    (targetDuration : ℚ) (h : 0 ≤ targetDuration) :
    (createHighlightReel viralClips targetDuration).totalDuration ≤ targetDuration ∧
    (createHighlightReel viralClips targetDuration).totalDuration =
      (((createHighlightReel viralClips targetDuration).clips).map (·.duration)).sum := by
  unfold createHighlightReel
  simp only
  constructor
  · exact reelSelectGo_le targetDuration _ 0 h
  · rw [reelSelectGo_sum targetDuration _ 0, zero_add]
    exact (((List.perm_insertionSort startAsc _).map (·.duration)).sum_eq).symm

/-- C10, counterexample to the claim as stated: with the (degenerate)
budget −1 and no candidates, the reel reports `totalDuration = 0`, which
exceeds the budget — the bound only holds for non-negative budgets. -/
theorem createHighlightReel_negative_budget :
    ¬((createHighlightReel [] (-1)).totalDuration ≤ -1) := by
  decide

/-- C10, witness: the amended theorem at one concrete clip and the default
60 s budget. -/
theorem createHighlightReel_budget_witness :
    (createHighlightReel [candC7] 60).totalDuration ≤ 60 ∧
    (createHighlightReel [candC7] 60).totalDuration =
      (((createHighlightReel [candC7] 60).clips).map (·.duration)).sum :=
  createHighlightReel_budget [candC7] 60 (by norm_num)

/-! ### C9 — beat detection -/

/-- C9, confirmed.  Sequences of fewer than 3 segments yield no beats, and a
beat marker is emitted exactly for the interior segments whose energy rise
from the previous segment exceeds 0.03 while the next step falls, with
strength equal to that rise. -/
theorem detectBeats_characterisation (segments : List AudioSegment) :
    (segments.length < 3 → detectBeats segments = []) ∧
    ∀ b : BeatMarker, b ∈ detectBeats segments ↔
      ∃ i : ℕ, 1 ≤ i ∧ i + 1 < segments.length ∧
        3/100 < (segments.getD i noSegment).energy - (segments.getD (i-1) noSegment).energy ∧
        (segments.getD (i+1) noSegment).energy - (segments.getD i noSegment).energy < 0 ∧
        b = ⟨(segments.getD i noSegment).time,
             (segments.getD i noSegment).energy - (segments.getD (i-1) noSegment).energy⟩ := by
  constructor
  · intro h
    rw [detectBeats, if_pos h]
  · intro b
    by_cases h : segments.length < 3
    · rw [detectBeats, if_pos h]
      simp only [List.not_mem_nil, false_iff, not_exists]
      intro i ⟨h1, h2, _⟩
      omega
    · rw [detectBeats, if_neg h]
      rw [List.mem_filterMap]
      constructor
      · rintro ⟨k, hk, hsome⟩
        rw [List.mem_range] at hk
        simp only [] at hsome
        split at hsome
        · next hcond =>
          injection hsome with hb
          exact ⟨k + 1, by omega, by omega, hcond.1, hcond.2, hb.symm⟩
        · exact absurd hsome (by simp)
      · rintro ⟨i, h1, h2, hd, hn, hb⟩
        refine ⟨i - 1, List.mem_range.mpr (by omega), ?_⟩
        have hi : i - 1 + 1 = i := by omega
        rw [hi, if_pos ⟨hd, hn⟩, hb]

/-- C9, witness: a single-segment sequence produces no beats. -/
theorem detectBeats_characterisation_witness : detectBeats [noSegment] = [] :=
  (detectBeats_characterisation [noSegment]).1 (by decide)

/-! ### C5 — duration guard of `analyzeVideo` -/

/-- C5, confirmed.  `analyzeVideo` fails — with the descriptive message and
no result — exactly when the source's duration is `NaN` (missing metadata),
infinite, or zero; and on such a duration it fails for EVERY media source
carrying that duration, i.e. before any frame sampling or audio work could
depend on the rest of the source. -/
theorem analyzeVideo_duration_guard (video : MediaSource) :
    ((∃ msg, analyzeVideo video = .error msg) ↔
      (video.duration = .nan ∨ video.duration = .posInf ∨ video.duration = .negInf ∨
        video.duration = .num 0)) ∧
    ((video.duration = .nan ∨ video.duration = .posInf ∨ video.duration = .negInf ∨
        video.duration = .num 0) →
      ∀ alt : MediaSource, alt.duration = video.duration →
        analyzeVideo alt = .error "Video has no valid duration") := by
  constructor
  · obtain ⟨d, pix, thumb, dec, rS, rW, sq⟩ := video
    cases d with
    | num q =>
      by_cases hq : q = 0
      · subst hq
        simp [analyzeVideo]
      · simp [analyzeVideo, hq]
    | nan => simp [analyzeVideo]
    | posInf => simp [analyzeVideo]
    | negInf => simp [analyzeVideo]
  · intro hinv alt halt
    obtain ⟨d', pix', thumb', dec', rS', rW', sq'⟩ := alt
    simp only at halt
    rw [halt]
    rcases hinv with h | h | h | h <;> rw [h] <;> simp [analyzeVideo]

/-- C5, witness: a zero-duration source is rejected with the descriptive
error. -/
theorem analyzeVideo_duration_guard_witness :
    analyzeVideo zeroDurationSource = .error "Video has no valid duration" :=
  (analyzeVideo_duration_guard zeroDurationSource).2
    (Or.inr (Or.inr (Or.inr rfl))) zeroDurationSource rfl

/-! ### C6 — audio decode failure degrades gracefully -/

set_option maxRecDepth 20000 in
/-- C6, confirmed.  For a valid (positive, finite) duration whose audio
decode failed, `analyzeVideo` still returns a full result; its audio is the
synthetic series — one segment per 0.5 s step of `[0, duration)`, i.e.
`ceil(2 * duration)` segments with `time i = i/2 < duration` — and its
waveform the synthetic 1000-point series. -/
theorem analyzeVideo_decode_fallback (q : ℚ) (pix : ℚ → PixelBuf) (thumb : ℚ → String)
    (randSeg randWave : ℕ → ℚ) (sqrtF : ℚ → ℚ) (hq : 0 < q) :
    ∃ res : AnalysisResult,
      analyzeVideo ⟨.num q, pix, thumb, none, randSeg, randWave, sqrtF⟩ = .ok res ∧
      res.audio = syntheticSegments q randSeg ∧
      res.waveform = syntheticWaveform randWave ∧
      res.audio.length = (jsCeil (2 * q)).toNat ∧
      (∀ i, (hi : i < res.audio.length) →
        (res.audio[i].time = (i : ℚ) / 2 ∧ res.audio[i].time < q)) ∧
      res.waveform.length = 1000 := by
  rw [analyzeVideo]
  simp only [if_neg hq.ne']
  have haud : (analyzeAudioFromVideo sqrtF none q randSeg randWave).1 =
      syntheticSegments q randSeg := rfl
  have hwav : (analyzeAudioFromVideo sqrtF none q randSeg randWave).2 =
      syntheticWaveform randWave := rfl
  refine ⟨_, rfl, haud, hwav, ?_, ?_, ?_⟩
  · rw [haud]
    simp [syntheticSegments]
  · intro i hi
    rw [haud] at hi
    simp only [syntheticSegments, List.length_map, List.length_range] at hi
    have hiq : (i : ℚ) < 2 * q := by
      have h1 : (i : ℤ) < jsCeil (2 * q) := Int.lt_toNat.mp hi
      have h2 : ((jsCeil (2 * q) : ℤ) : ℚ) < 2 * q + 1 := Int.ceil_lt_add_one (2 * q)
      have h3 : ((i : ℤ) : ℚ) + 1 ≤ ((jsCeil (2 * q) : ℤ) : ℚ) := by
        exact_mod_cast h1
      push_cast at h3
      linarith
    have hTime : (analyzeAudioFromVideo sqrtF none q randSeg randWave).1[i].time =
        (i : ℚ) * (1/2) := by
      simp [haud, syntheticSegments]
    constructor
    · rw [hTime]
      ring
    · rw [hTime]
      linarith
  · rw [hwav]
    simp [syntheticWaveform]

/-- C6, witness: the fallback theorem at the concrete 10-second source with
failed decode. -/
theorem analyzeVideo_decode_fallback_witness :
    ∃ res : AnalysisResult,
      analyzeVideo fallbackSource = .ok res ∧
      res.audio = syntheticSegments 10 fallbackSource.randSeg ∧
      res.waveform = syntheticWaveform fallbackSource.randWave ∧
      res.audio.length = (jsCeil (2 * 10)).toNat ∧
      (∀ i, (hi : i < res.audio.length) →
        (res.audio[i].time = (i : ℚ) / 2 ∧ res.audio[i].time < 10)) ∧
      res.waveform.length = 1000 :=
  analyzeVideo_decode_fallback 10 fallbackSource.pix fallbackSource.thumb
    fallbackSource.randSeg fallbackSource.randWave fallbackSource.sqrtF (by norm_num)

/-! ### C4 — speed-up actions for low-energy runs -/

theorem findConsecutiveGo_eq (minDuration : ℚ) :
    ∀ (ts : List ℚ) (a p : ℚ),
      findConsecutiveGo minDuration a p ts =
        (if minDuration ≤ (gapSplitGo p ts).1.getLastD p - a then
          [(a, (gapSplitGo p ts).1.getLastD p + 1/2)] else []) ++
        (gapSplitGo p ts).2.filterMap (chunkRun minDuration) := by
  intro ts
  induction ts with
  | nil =>
    intro a p
    rw [findConsecutiveGo, gapSplitGo]
    simp only [List.getLastD_nil, List.filterMap_nil, List.append_nil]
  | cons t ts ih =>
    intro a p
    rw [findConsecutiveGo, gapSplitGo]
    by_cases hgap : 1 < t - p
    · rw [if_pos hgap, if_pos hgap, ih t t]
      simp only [List.getLastD_nil, List.filterMap_cons, chunkRun]
      split_ifs <;> simp
    · rw [if_neg hgap, if_neg hgap, ih a t]
      simp only [List.getLastD_cons]

/-- The `findConsecutiveSegments` loop computes exactly the spec's
description: one region per maximal ≤ 1 s-gap run spanning at least
`minDuration`. -/
theorem findConsecutiveSegments_eq_specRuns (minDuration : ℚ) (times : List ℚ) :
    findConsecutiveSegments minDuration times = specRuns minDuration times := by
  cases times with
  | nil => rfl
  | cons t ts =>
    rw [findConsecutiveSegments, specRuns, gapSplit, findConsecutiveGo_eq minDuration ts t t]
    simp only [List.filterMap_cons]
    rw [chunkRun]
    split <;> simp

theorem cutActions_filter_isSpeed (silentRegions : List (ℚ × ℚ)) :
    (cutActions silentRegions).filter isSpeed = [] := by
  induction silentRegions with
  | nil => rfl
  | cons r rest ih => simpa [cutActions, isSpeed, List.filter] using ih

theorem transitionActions_filter_isSpeed (scenes : List SceneChange) :
    (transitionActions scenes).filter isSpeed = [] := by
  induction scenes with
  | nil => rfl
  | cons s rest _ =>
    by_cases hc : 1/2 < s.confidence
    · simp [transitionActions, isSpeed, List.filter, hc]
    · simp [transitionActions, isSpeed, List.filter, hc]

theorem speedActions_filter_isSpeed (audio : List AudioSegment) :
    (speedActions audio).filter isSpeed = speedActions audio := by
  rw [speedActions]
  generalize findConsecutiveSegments (3/2) ((lowEnergyFilter audio).map (·.time)) = l
  induction l with
  | nil => rfl
  | cons seg rest ih => simpa [mkSpeedAction, isSpeed, List.filter] using ih

/-- C4, amended.  The speed actions `autoEdit` emits are exactly one per
maximal run — timestamps at most 1 s apart, spanning at least 1.5 s — of
non-silent audio segments whose energy is below 40 % of the mean energy of
ALL audio segments (the code averages over every segment, silent ones
included, not over the non-silent segments only as the claim states). -/
theorem autoEdit_speed_actions (analysis : AnalysisResult) :
    (autoEditActions analysis).filter isSpeed = specSpeedActions analysis.audio := by
  rw [autoEditActions, List.filter_append, List.filter_append,
    cutActions_filter_isSpeed, transitionActions_filter_isSpeed,
    speedActions_filter_isSpeed]
  rw [speedActions, specSpeedActions, findConsecutiveSegments_eq_specRuns]
  simp

set_option maxRecDepth 10000 in
/-- C4, counterexample to the claim as stated, at `analysisC4`: under the
claim's low-energy bar (40 % of the mean of the non-silent segments) the
four 0.9-energy segments at `0.5 … 2.0` form a qualifying ≥ 1.5 s run, so
the claim predicts one speed action; the code, averaging over all segments
(silence included), classifies nothing as low-energy and emits none. -/
theorem autoEdit_speed_actions_claim_refuted :
    (autoEditActions analysisC4).filter isSpeed = [] ∧
    claimSpeedActions analysisC4.audio = [mkSpeedAction (1/2, 5/2)] ∧
    (autoEditActions analysisC4).filter isSpeed ≠ claimSpeedActions analysisC4.audio := by
  decide

/-! ### C7 and C8 — the virality scorer's invariants -/

theorem removeOverlapsGo_sublist :
    ∀ (rest kept : List ViralClipCandidate),
      ∃ sub, sub.Sublist rest ∧ removeOverlapsGo kept rest = kept ++ sub := by
  intro rest
  induction rest with
  | nil =>
    intro kept
    exact ⟨[], List.nil_sublist [], by simp [removeOverlapsGo]⟩
  | cons clip rest ih =>
    intro kept
    rw [removeOverlapsGo]
    split
    · obtain ⟨sub, hs, he⟩ := ih kept
      exact ⟨sub, hs.cons clip, he⟩
    · obtain ⟨sub, hs, he⟩ := ih (kept ++ [clip])
      exact ⟨clip :: sub, hs.cons₂ clip, by simpa [List.append_assoc] using he⟩

theorem removeOverlaps_sublist (clips : List ViralClipCandidate) :
    (removeOverlaps clips).Sublist clips := by
  obtain ⟨sub, hsub, heq⟩ := removeOverlapsGo_sublist clips []
  rw [removeOverlaps, heq, List.nil_append]
  exact hsub

theorem mem_findViralClips (frames : List FrameData) (scenes : List SceneChange)
    (audio : List AudioSegment) (beats : List BeatMarker)
    (silentRegions : List (ℚ × ℚ)) (totalDuration : ℚ) (c : ViralClipCandidate)
    (hc : c ∈ findViralClips frames scenes audio beats silentRegions totalDuration) :
    ∃ len ∈ ([15, 30, 60] : List ℕ), ∃ start : ℚ,
      mkWindow frames scenes audio beats silentRegions len start = some c := by
  rw [findViralClips] at hc
  have hc1 := List.mem_of_mem_take hc
  have hc2 := (removeOverlaps_sublist _).subset hc1
  have hc3 := (List.perm_insertionSort scoreDesc _).mem_iff.mp hc2
  rw [List.mem_flatMap] at hc3
  obtain ⟨len, hlen, hmem⟩ := hc3
  rw [List.mem_filterMap] at hmem
  obtain ⟨start, _, heq⟩ := hmem
  exact ⟨len, (List.mem_filter.mp hlen).1, start, heq⟩

theorem mkWindow_eq_some (frames : List FrameData) (scenes : List SceneChange)
    (audio : List AudioSegment) (beats : List BeatMarker)
    (silentRegions : List (ℚ × ℚ)) (clipLen : ℕ) (start : ℚ) (c : ViralClipCandidate)
    (h : mkWindow frames scenes audio beats silentRegions clipLen start = some c) :
    c.startTime = start ∧ c.endTime = start + (clipLen : ℚ) ∧ c.duration = (clipLen : ℚ) ∧
    c.viralityScore =
      (jsRound (windowRawScore frames scenes audio beats silentRegions clipLen start) : ℚ) ∧
    35 < c.viralityScore := by
  rw [mkWindow] at h
  split at h
  · next h35 =>
    have hc := (Option.some.injEq _ _).mp h
    subst hc
    exact ⟨rfl, rfl, rfl, rfl, h35⟩
  · exact absurd h (by simp)

theorem silenceIn_nonneg (silentRegions : List (ℚ × ℚ)) (s e : ℚ)
    (hreg : ∀ r ∈ silentRegions, r.1 < r.2) (hse : s < e) :
    0 ≤ silenceIn silentRegions s e := by
  rw [silenceIn]
  apply List.sum_nonneg
  intro x hx
  rw [List.mem_map] at hx
  obtain ⟨r, hrmem, rfl⟩ := hx
  rw [List.mem_filter] at hrmem
  obtain ⟨hr, hcond⟩ := hrmem
  simp only [Bool.and_eq_true, decide_eq_true_eq] at hcond
  have h12 := hreg r hr
  have h1 : max r.1 s ≤ min r.2 e :=
    max_le (le_min h12.le hcond.1.le) (le_min hcond.2.le hse.le)
  linarith

theorem scoreComponentsBound (E M S B P : ℚ) (hP : 0 ≤ P) :
    min 30 E + min 25 M + min 15 S + min 15 B + max 0 (15 - P * 30) ≤ 100 := by
  have h1 := min_le_left (30:ℚ) E
  have h2 := min_le_left (25:ℚ) M
  have h3 := min_le_left (15:ℚ) S
  have h4 := min_le_left (15:ℚ) B
  have h5 : max 0 (15 - P * 30) ≤ 15 := by
    apply max_le (by norm_num)
    nlinarith
  linarith

theorem windowRawScore_le_100 (frames : List FrameData) (scenes : List SceneChange)
    (audio : List AudioSegment) (beats : List BeatMarker)
    (silentRegions : List (ℚ × ℚ)) (clipLen : ℕ) (start : ℚ)
    (hreg : ∀ r ∈ silentRegions, r.1 < r.2) (hpos : 0 < (clipLen : ℚ)) :
    windowRawScore frames scenes audio beats silentRegions clipLen start ≤ 100 := by
  have hP : 0 ≤ silenceIn silentRegions start (start + (clipLen : ℚ)) / (clipLen : ℚ) :=
    div_nonneg
      (silenceIn_nonneg silentRegions start (start + (clipLen : ℚ)) hreg (by linarith))
      hpos.le
  exact scoreComponentsBound _ _ _ _ _ hP

theorem jsRound_le_100 {x : ℚ} (hx : x ≤ 100) : (jsRound x : ℚ) ≤ 100 := by
  have h1 : jsRound x ≤ ⌊(100:ℚ) + 1/2⌋ := Int.floor_mono (by linarith)
  have h2 : ⌊(100:ℚ) + 1/2⌋ = 100 := by decide
  rw [h2] at h1
  exact_mod_cast h1

/-- C7, confirmed.  Every candidate the virality scorer returns — given
well-formed silent regions (`start < end`, the `SilentRegion` data-model
invariant) — has a score between 0 and 100, satisfies
`endTime − startTime = duration` exactly, and its duration is one of the
configured candidate lengths 15, 30 or 60 seconds. -/
theorem findViralClips_candidate_invariants (frames : List FrameData)
    (scenes : List SceneChange) (audio : List AudioSegment) (beats : List BeatMarker)
    (silentRegions : List (ℚ × ℚ)) (totalDuration : ℚ)
    (hreg : ∀ r ∈ silentRegions, r.1 < r.2) (c : ViralClipCandidate)
    (hc : c ∈ findViralClips frames scenes audio beats silentRegions totalDuration) :
    0 ≤ c.viralityScore ∧ c.viralityScore ≤ 100 ∧
      c.endTime - c.startTime = c.duration ∧
      (c.duration = 15 ∨ c.duration = 30 ∨ c.duration = 60) := by
  obtain ⟨len, hlen, start, hmk⟩ :=
    mem_findViralClips frames scenes audio beats silentRegions totalDuration c hc
  obtain ⟨hst, hend, hdur, hscore, h35⟩ :=
    mkWindow_eq_some frames scenes audio beats silentRegions len start c hmk
  have hlen3 : len = 15 ∨ len = 30 ∨ len = 60 := by simpa using hlen
  have hpos : 0 < (len : ℚ) := by
    rcases hlen3 with h | h | h <;> subst h <;> norm_num
  refine ⟨by linarith, ?_, by rw [hend, hst, hdur]; ring, ?_⟩
  · rw [hscore]
    exact jsRound_le_100
      (windowRawScore_le_100 frames scenes audio beats silentRegions len start hreg hpos)
  · rw [hdur]
    rcases hlen3 with h | h | h <;> subst h <;> norm_num

set_option maxRecDepth 20000 in
/-- C7, witness: the invariants at the single candidate produced by a 15 s
uniform-energy track. -/
theorem findViralClips_candidate_invariants_witness :
    0 ≤ candC7.viralityScore ∧ candC7.viralityScore ≤ 100 ∧
      candC7.endTime - candC7.startTime = candC7.duration ∧
      (candC7.duration = 15 ∨ candC7.duration = 30 ∨ candC7.duration = 60) :=
  findViralClips_candidate_invariants [] [] audioC7 [] [] 15 (by decide) candC7 (by decide)

theorem removeOverlaps_sorted_strict (clips : List ViralClipCandidate)
    (hsorted : clips.Pairwise scoreDesc) :
    ∀ x ∈ (removeOverlaps clips).take 10, ∀ y ∈ (removeOverlaps clips).take 10,
      y.viralityScore < x.viralityScore → overlapAmount x y ≤ y.duration / 2 := by
  intro x hx y hy hscore
  have hR : ((removeOverlaps clips).take 10).Pairwise
      (fun a b => overlapAmount a b ≤ b.duration / 2) :=
    List.Pairwise.sublist (List.take_sublist 10 _)
      (removeOverlapsGo_pairwise clips [] List.Pairwise.nil)
  have hS : ((removeOverlaps clips).take 10).Pairwise scoreDesc :=
    List.Pairwise.sublist ((List.take_sublist 10 _).trans (removeOverlaps_sublist clips))
      hsorted
  obtain ⟨i, hi, hxe⟩ := List.mem_iff_getElem.mp hx
  obtain ⟨j, hj, hye⟩ := List.mem_iff_getElem.mp hy
  rcases lt_trichotomy i j with hij | hij | hij
  · have h := List.pairwise_iff_getElem.mp hR i j hi hj hij
    rw [hxe, hye] at h
    exact h
  · subst hij
    have hxy : x = y := hxe.symm.trans hye
    rw [hxy] at hscore
    exact absurd hscore (lt_irrefl _)
  · have h := List.pairwise_iff_getElem.mp hS j i hj hi hij
    rw [hxe, hye] at h
    rw [scoreDesc] at h
    linarith

/-- C8, amended.  `findViralClips` returns at most 10 candidates, and for
any two returned candidates `x`, `y` with `x` scored STRICTLY higher, their
overlap is at most 50 % of `y`'s (the lower-scored one's) duration.  The
strictness is forced: for tied scores only the later-processed clip was
checked against the earlier one, and the bound can fail in the direction
the claim's `≥` also asserts (see the counterexample). -/
theorem findViralClips_overlap_strict (frames : List FrameData)
    (scenes : List SceneChange) (audio : List AudioSegment) (beats : List BeatMarker)
    (silentRegions : List (ℚ × ℚ)) (totalDuration : ℚ) :
    (findViralClips frames scenes audio beats silentRegions totalDuration).length ≤ 10 ∧
    ∀ x ∈ findViralClips frames scenes audio beats silentRegions totalDuration,
      ∀ y ∈ findViralClips frames scenes audio beats silentRegions totalDuration,
        y.viralityScore < x.viralityScore → overlapAmount x y ≤ y.duration / 2 := by
  constructor
  · rw [findViralClips]
    simp only [List.length_take]
    exact min_le_left _ _
  · rw [findViralClips]
    exact removeOverlaps_sorted_strict _ (List.sorted_insertionSort scoreDesc _)

set_option maxRecDepth 40000 in
/-- C8, counterexample to the claim as stated (`viralityScore ≥`): on the
30-second `audioC8` track the scorer keeps the 30 s window and the 15 s
window at 7.5 s, both scoring 39.  With equal scores the claim's `a` may be
either one; taking `a` = the 30 s window, the overlap is 15 s — double the
50 % of `b`'s 15 s duration the claim allows. -/
theorem findViralClips_tied_scores_overlap :
    candC8a ∈ findViralClips [] [] audioC8 [] [] 30 ∧
    candC8b ∈ findViralClips [] [] audioC8 [] [] 30 ∧
    candC8b.viralityScore ≤ candC8a.viralityScore ∧
    candC8b.duration / 2 < overlapAmount candC8a candC8b := by
  decide

set_option maxRecDepth 40000 in
/-- C8, witness: the amended theorem at two kept candidates of `audioC8`
with strictly different scores (40 vs 39). -/
theorem findViralClips_overlap_strict_witness :
    overlapAmount candC8c candC8b ≤ candC8b.duration / 2 :=
  (findViralClips_overlap_strict [] [] audioC8 [] [] 30).2
    candC8c (by decide) candC8b (by decide) (by decide)

end NexusVI
